import Mathlib

/-!
Shallow embedding of the RAID capacity/performance modelling engine and the
data-placement algorithm of the Information-Storage-Project repository.

Capacity and performance functions are embedded from
`src/Modules/Raid_Calculation.py`; the placement engine is embedded from
`build_virtual_disks` in `src/run.py`.

Conventions:
- Python floats are modelled as exact rationals (`ℚ`).
- Python `raise ValueError(msg)` is modelled as `Except.error msg`.
- Disk counts passed to the capacity model are `ℤ` (Python ints).
- File sizes handled by the placement engine are `ℕ` (byte counts from
  `os.path.getsize`).
-/

/-- Decidable equality for `Except`, used to evaluate the embedded functions
on concrete inputs. -/
instance exceptDecEq {ε α : Type} [DecidableEq ε] [DecidableEq α] :
    DecidableEq (Except ε α) := fun a b =>
  match a, b with
  | .ok x, .ok y =>
    if h : x = y then .isTrue (by rw [h]) else .isFalse (by simp [h])
  | .error x, .error y =>
    if h : x = y then .isTrue (by rw [h]) else .isFalse (by simp [h])
  | .ok _, .error _ => .isFalse (by simp)
  | .error _, .ok _ => .isFalse (by simp)

namespace RaidCalc

/-- Embeds `usable_capacity_percent(num_disks, raid_level)` from
`src/Modules/Raid_Calculation.py` lines 46-113. -/
def usable_capacity_percent (num_disks : ℤ) (raid_level : String) : Except String ℚ :=
  if num_disks < 2 then
    .error "Number of disks must be at least 2"
  else if raid_level = "RAID 0" then
    .ok 100
  else if raid_level = "RAID 1" then
    .ok (100 / (num_disks : ℚ))
  else if raid_level = "RAID 5" then
    if num_disks < 3 then
      .error "RAID 5 requires at least 3 disks"
    else
      .ok ((((num_disks : ℚ) - 1) / (num_disks : ℚ)) * 100)
  else
    .error ("Unsupported RAID level: " ++ raid_level)

/-- Embeds `redundancy_percent(num_disks, raid_level)` (lines 116-146):
`100.0 - usable_capacity_percent(...)`, propagating the exception. -/
def redundancy_percent (num_disks : ℤ) (raid_level : String) : Except String ℚ :=
  match usable_capacity_percent num_disks raid_level with
  | .error e => .error e
  | .ok u => .ok (100 - u)

/-- Embeds `space_efficiency(num_disks, raid_level)` (lines 149-183):
`usable_capacity_percent(...) / 100.0`, propagating the exception. -/
def space_efficiency (num_disks : ℤ) (raid_level : String) : Except String ℚ :=
  match usable_capacity_percent num_disks raid_level with
  | .error e => .error e
  | .ok u => .ok (u / 100)

/-- The dict returned by `calculate_storage_overhead`. -/
structure StorageOverhead where
  usable_bytes : ℚ
  parity_bytes : ℚ
  mirror_bytes : ℚ
  total_required_bytes : ℚ
  efficiency_ratio : ℚ
deriving DecidableEq, Repr

/-- Embeds `calculate_storage_overhead(total_bytes, raid_level, num_disks)`
(lines 186-281). `space_efficiency` is called first, so its validation errors
propagate; the trailing `else` branch of the Python code is kept although it
is unreachable. -/
def calculate_storage_overhead (total_bytes : ℚ) (raid_level : String)
    (num_disks : ℤ) : Except String StorageOverhead :=
  match space_efficiency num_disks raid_level with
  | .error e => .error e
  | .ok efficiency =>
    if raid_level = "RAID 0" then
      .ok { usable_bytes := total_bytes
            parity_bytes := 0
            mirror_bytes := 0
            total_required_bytes := total_bytes
            efficiency_ratio := 1 }
    else if raid_level = "RAID 1" then
      .ok { usable_bytes := total_bytes
            parity_bytes := 0
            mirror_bytes := total_bytes * ((num_disks : ℚ) - 1)
            total_required_bytes := total_bytes * (num_disks : ℚ)
            efficiency_ratio := efficiency }
    else if raid_level = "RAID 5" then
      .ok { usable_bytes := total_bytes
            parity_bytes := total_bytes / ((num_disks : ℚ) - 1)
            mirror_bytes := 0
            total_required_bytes := total_bytes + total_bytes / ((num_disks : ℚ) - 1)
            efficiency_ratio := efficiency }
    else
      .error ("Unsupported RAID level: " ++ raid_level)

/-- Embeds `estimate_access_time(file_size_bytes, num_disks, raid_level,
base_transfer_rate_mbps)` (lines 288-365). No validation is performed; an
unknown RAID level falls back to the single-disk rate. -/
def estimate_access_time (file_size_bytes : ℚ) (num_disks : ℤ)
    (raid_level : String) (base_transfer_rate_mbps : ℚ) : ℚ :=
  let file_size_mb := file_size_bytes / (1024 * 1024)
  if raid_level = "RAID 0" then
    file_size_mb / (base_transfer_rate_mbps * (num_disks : ℚ))
  else if raid_level = "RAID 1" then
    let write_time := file_size_mb / base_transfer_rate_mbps
    let read_time := file_size_mb / (base_transfer_rate_mbps * (num_disks : ℚ))
    (write_time + read_time) / 2
  else if raid_level = "RAID 5" then
    let data_disks := (num_disks : ℚ) - 1
    let effective_rate := base_transfer_rate_mbps * data_disks * (85 / 100)
    file_size_mb / effective_rate
  else
    file_size_mb / base_transfer_rate_mbps

/-- Embeds `calculate_parallel_speedup(num_disks, raid_level)` (lines
368-420). No validation; an unknown RAID level yields `1.0`. -/
def calculate_parallel_speedup (num_disks : ℤ) (raid_level : String) : ℚ :=
  if raid_level = "RAID 0" then
    (num_disks : ℚ)
  else if raid_level = "RAID 1" then
    (num_disks : ℚ) * (5 / 10)
  else if raid_level = "RAID 5" then
    ((num_disks : ℚ) - 1) * (85 / 100)
  else
    1

/-- Embeds `fault_tolerance_level(raid_level, num_disks=None)` (lines
427-483). The Python expression `num_disks - 1 if num_disks else 1` is falsy
for both `None` and `0`. No validation; an unknown RAID level yields `0`. -/
def fault_tolerance_level (raid_level : String) (num_disks : Option ℤ) : ℤ :=
  if raid_level = "RAID 0" then
    0
  else if raid_level = "RAID 1" then
    match num_disks with
    | some n => if n = 0 then 1 else n - 1
    | none => 1
  else if raid_level = "RAID 5" then
    1
  else
    0

end RaidCalc

namespace Placement

/-- `min(candidates, key=lambda x: disk_loads[x])` from `src/run.py` line 348:
first element of `candidates` attaining the minimal load (Python's `min`
returns the earliest minimum). An empty candidate list (impossible in the
runs we consider) yields `0`. -/
def argminLoad (loads : List ℕ) (candidates : List ℕ) : ℕ :=
  match candidates with
  | [] => 0
  | c :: cs =>
    cs.foldl (fun best d => if loads.getD d 0 < loads.getD best 0 then d else best) c

/-- The placement state built by the loop of `build_virtual_disks`
(`src/run.py` lines 310-383): per-disk byte loads, the per-item target-disk
lists (each item's `targets`), and for RAID 5 the parity markers
`(parityDisk, dataDisk)` recorded per item. -/
structure PlaceState where
  loads : List ℕ
  assignments : List (List ℕ)
  markers : List (ℕ × ℕ)
deriving DecidableEq, Repr

/-- One iteration of the `for idx, f in enumerate(files)` loop of
`build_virtual_disks` (`src/run.py` lines 322-383): RAID 1 records the item
on every disk; RAID 0 and RAID 5 route it to the least-loaded candidate disk
(RAID 5 excludes the parity disk `idx % num` from the candidates and records
a parity marker naming `targets[0]` as the data disk). -/
def place_one (raid : String) (num idx size : ℕ) (st : PlaceState) : PlaceState :=
  if raid = "RAID 1" then
    { loads := st.loads.map (· + size)
      assignments := st.assignments ++ [List.range num]
      markers := st.markers }
  else
    let candidates :=
      (List.range num).filter (fun d => raid != "RAID 5" || d != idx % num)
    let target := argminLoad st.loads candidates
    { loads := st.loads.set target (st.loads.getD target 0 + size)
      assignments := st.assignments ++ [[target]]
      markers :=
        if raid = "RAID 5" then st.markers ++ [(idx % num, target)]
        else st.markers }

/-- The placement loop from item index `idx` onwards, processing the
remaining sizes strictly in input order. -/
def placeFrom (raid : String) (num idx : ℕ) (sizes : List ℕ)
    (st : PlaceState) : PlaceState :=
  match sizes with
  | [] => st
  | s :: rest => placeFrom raid num (idx + 1) rest (place_one raid num idx s st)

/-- Embeds the placement computation of `build_virtual_disks(raid, num,
files, ts)` (`src/run.py` lines 310-383), abstracting each file to its size
in bytes: loads start at zero for every disk and the items are processed in
input order. -/
def build_virtual_disks (raid : String) (num : ℕ) (sizes : List ℕ) : PlaceState :=
  placeFrom raid num 0 sizes ⟨List.replicate num 0, [], []⟩

/-- The sizes of the items routed to disk `d`: the item sizes paired
positionally with the target lists recorded in the assignments, keeping the
sizes of the items whose target list contains `d`. -/
def routedSizes (sizes : List ℕ) (assigns : List (List ℕ)) (d : ℕ) : List ℕ :=
  (sizes.zip assigns).filterMap (fun p => if d ∈ p.2 then some p.1 else none)

/-- The largest single item size routed to disk `d` (zero when no item was
routed there). -/
def maxRouted (sizes : List ℕ) (assigns : List (List ℕ)) (d : ℕ) : ℕ :=
  (routedSizes sizes assigns d).foldr max 0

end Placement

/-- Whether an embedded computation raised (a Python `ValueError`). -/
def raisesError {ε α : Type} : Except ε α → Bool
  | .error _ => true
  | .ok _ => false

open RaidCalc Placement

/-- C1: for every diskCount ≥ 2 (and ≥ 3 for ParityRotating),
`usableCapacityPercent` is 100 for Striped, 100/diskCount for Mirrored and
100·(diskCount−1)/diskCount for ParityRotating, and `redundancyPercent` is
100 minus that value. -/
theorem C1_usable_and_redundancy_percent (n : ℤ) (h2 : 2 ≤ n) :
    usable_capacity_percent n "RAID 0" = .ok 100 ∧
    redundancy_percent n "RAID 0" = .ok (100 - 100) ∧
    usable_capacity_percent n "RAID 1" = .ok (100 / (n : ℚ)) ∧
    redundancy_percent n "RAID 1" = .ok (100 - 100 / (n : ℚ)) ∧
    (3 ≤ n →
      usable_capacity_percent n "RAID 5" = .ok (100 * ((n : ℚ) - 1) / (n : ℚ)) ∧
      redundancy_percent n "RAID 5" =
        .ok (100 - 100 * ((n : ℚ) - 1) / (n : ℚ))) := by
  have hn2 : ¬ n < 2 := by omega
  refine ⟨?_, ?_, ?_, ?_, fun h3 => ?_⟩
  · simp [usable_capacity_percent, if_neg hn2, String.reduceEq]
  · simp [redundancy_percent, usable_capacity_percent, if_neg hn2,
      String.reduceEq]
  · simp [usable_capacity_percent, if_neg hn2, String.reduceEq]
  · simp [redundancy_percent, usable_capacity_percent, if_neg hn2,
      String.reduceEq]
  · have hn3 : ¬ n < 3 := by omega
    have hu : usable_capacity_percent n "RAID 5" =
        .ok ((((n : ℚ) - 1) / (n : ℚ)) * 100) := by
      rw [usable_capacity_percent, if_neg hn2,
        if_neg (show ¬ ("RAID 5" : String) = "RAID 0" by decide),
        if_neg (show ¬ ("RAID 5" : String) = "RAID 1" by decide),
        if_pos rfl, if_neg hn3]
    constructor
    · rw [hu]
      congr 1
      ring
    · simp only [redundancy_percent, hu, Except.ok.injEq]
      ring

/-- Witness for C1 at diskCount = 4. -/
theorem C1_witness :
    usable_capacity_percent 4 "RAID 0" = .ok 100 ∧
    redundancy_percent 4 "RAID 0" = .ok (100 - 100) ∧
    usable_capacity_percent 4 "RAID 1" = .ok (100 / (4 : ℚ)) ∧
    redundancy_percent 4 "RAID 1" = .ok (100 - 100 / (4 : ℚ)) ∧
    usable_capacity_percent 4 "RAID 5" = .ok (100 * ((4 : ℚ) - 1) / (4 : ℚ)) ∧
    redundancy_percent 4 "RAID 5" =
      .ok (100 - 100 * ((4 : ℚ) - 1) / (4 : ℚ)) :=
  (fun h => ⟨h.1, h.2.1, h.2.2.1, h.2.2.2.1,
      (h.2.2.2.2 (by norm_num)).1, (h.2.2.2.2 (by norm_num)).2⟩)
    (C1_usable_and_redundancy_percent 4 (by norm_num))

/-- C7: `usableCapacityPercent` raises (and hence produces no result) for
every diskCount < 2, for ParityRotating with diskCount < 3, and for every
unsupported scheme value. -/
theorem C7_usable_capacity_rejects_invalid (n : ℤ) (raid : String)
    (h : n < 2 ∨ (raid = "RAID 5" ∧ n < 3) ∨
      (raid ≠ "RAID 0" ∧ raid ≠ "RAID 1" ∧ raid ≠ "RAID 5")) :
    raisesError (usable_capacity_percent n raid) = true := by
  rcases h with h | ⟨hr, h3⟩ | ⟨h0, h1, h5⟩
  · rw [usable_capacity_percent, if_pos h]
    rfl
  · subst hr
    by_cases hn : n < 2
    · rw [usable_capacity_percent, if_pos hn]
      rfl
    · rw [usable_capacity_percent, if_neg hn,
        if_neg (show ¬ ("RAID 5" : String) = "RAID 0" by decide),
        if_neg (show ¬ ("RAID 5" : String) = "RAID 1" by decide),
        if_pos rfl, if_pos h3]
      rfl
  · by_cases hn : n < 2
    · rw [usable_capacity_percent, if_pos hn]
      rfl
    · rw [usable_capacity_percent, if_neg hn, if_neg h0, if_neg h1, if_neg h5]
      rfl

/-- Witness for C7 at diskCount = 1, scheme Striped. -/
theorem C7_witness : raisesError (usable_capacity_percent 1 "RAID 0") = true :=
  C7_usable_capacity_rejects_invalid 1 "RAID 0" (Or.inl (by norm_num))


/-- Helper: an `Except` value is an `ok` or an `error`. -/
theorem except_ok_or_error {ε α : Type} (x : Except ε α) :
    (∃ a, x = .ok a) ∨ ∃ e, x = .error e := by
  cases x with
  | error e => exact Or.inr ⟨e, rfl⟩
  | ok a => exact Or.inl ⟨a, rfl⟩

/-- Helper: `space_efficiency` on a successful capacity computation. -/
theorem space_efficiency_ok (n : ℤ) (raid : String) (u : ℚ)
    (h : usable_capacity_percent n raid = .ok u) :
    space_efficiency n raid = .ok (u / 100) := by
  simp only [space_efficiency, h]

/-- Helper: full field-level characterisation of every successful
`calculate_storage_overhead` result, shared by the storage-overhead
theorems. -/
theorem storage_overhead_fields (total : ℚ) (raid : String) (n : ℤ)
    (o : StorageOverhead)
    (h : calculate_storage_overhead total raid n = .ok o) :
    o.usable_bytes = total ∧
    space_efficiency n raid = .ok o.efficiency_ratio ∧
    ((raid = "RAID 0" ∧ o.parity_bytes = 0 ∧ o.mirror_bytes = 0 ∧
        o.total_required_bytes = total ∧ o.efficiency_ratio = 1) ∨
     (raid = "RAID 1" ∧ o.parity_bytes = 0 ∧
        o.mirror_bytes = total * ((n : ℚ) - 1) ∧
        o.total_required_bytes = total * (n : ℚ)) ∨
     (raid = "RAID 5" ∧ o.mirror_bytes = 0 ∧
        o.parity_bytes = total / ((n : ℚ) - 1) ∧
        o.total_required_bytes = total + total / ((n : ℚ) - 1))) := by
  rcases except_ok_or_error (space_efficiency n raid) with ⟨eff, hse⟩ | ⟨e, hse⟩
  · simp only [calculate_storage_overhead, hse] at h
    split_ifs at h with h0 h1 h5
    · injection h with h'
      subst h'
      subst h0
      refine ⟨rfl, ?_, Or.inl ⟨rfl, rfl, rfl, rfl, rfl⟩⟩
      by_cases hn : n < 2
      · have hu : usable_capacity_percent n "RAID 0" =
            .error "Number of disks must be at least 2" := by
          rw [usable_capacity_percent, if_pos hn]
        have hze : space_efficiency n "RAID 0" =
            .error "Number of disks must be at least 2" := by
          simp only [space_efficiency, hu]
        rw [hze] at hse
        exact Except.noConfusion hse
      · have hu : usable_capacity_percent n "RAID 0" = .ok 100 := by
          rw [usable_capacity_percent, if_neg hn, if_pos rfl]
        rw [space_efficiency_ok n "RAID 0" 100 hu]
        norm_num
    · injection h with h'
      subst h'
      subst h1
      exact ⟨rfl, hse, Or.inr (Or.inl ⟨rfl, rfl, rfl, rfl⟩)⟩
    · injection h with h'
      subst h'
      subst h5
      exact ⟨rfl, hse, Or.inr (Or.inr ⟨rfl, rfl, rfl, rfl⟩)⟩
  · simp only [calculate_storage_overhead, hse] at h
    exact Except.noConfusion h

/-- Helper: concrete evaluation of `calculate_storage_overhead` for the three
supported schemes at diskCount 4 and totalBytes 1000. -/
theorem storage_overhead_1000_raid0 :
    calculate_storage_overhead 1000 "RAID 0" 4 = .ok ⟨1000, 0, 0, 1000, 1⟩ := by
  have hu : usable_capacity_percent 4 "RAID 0" = .ok 100 := by
    rw [usable_capacity_percent, if_neg (show ¬ (4 : ℤ) < 2 by norm_num),
      if_pos rfl]
  simp only [calculate_storage_overhead, space_efficiency_ok 4 "RAID 0" 100 hu]
  rw [if_pos trivial]

/-- C5 counterexample: under Striped the claimed invariant "exactly one of
parityBytes and mirrorBytes is non-zero" fails — for totalBytes = 1000,
diskCount = 4, Striped, the accepted result has parityBytes = 0 AND
mirrorBytes = 0, so neither of the two is non-zero. -/
theorem C5_counterexample :
    calculate_storage_overhead 1000 "RAID 0" 4 =
      .ok ⟨1000, 0, 0, 1000, 1⟩ ∧
    (⟨1000, 0, 0, 1000, 1⟩ : StorageOverhead).usable_bytes = 1000 ∧
    (⟨1000, 0, 0, 1000, 1⟩ : StorageOverhead).parity_bytes = 0 ∧
    (⟨1000, 0, 0, 1000, 1⟩ : StorageOverhead).mirror_bytes = 0 :=
  ⟨storage_overhead_1000_raid0, rfl, rfl, rfl⟩

/-- C5 amended: for every accepted input, the StorageOverhead result
satisfies usableBytes = totalBytes, and parityBytes and mirrorBytes are
never both non-zero (at most one of them is non-zero; under Striped both are
zero). -/
theorem C5_amended_overhead_invariant (total : ℚ) (raid : String) (n : ℤ)
    (o : StorageOverhead)
    (h : calculate_storage_overhead total raid n = .ok o) :
    o.usable_bytes = total ∧ (o.parity_bytes = 0 ∨ o.mirror_bytes = 0) := by
  obtain ⟨hu, -, hc⟩ := storage_overhead_fields total raid n o h
  rcases hc with ⟨-, hp, -, -, -⟩ | ⟨-, hp, -, -⟩ | ⟨-, hm, -, -⟩
  · exact ⟨hu, Or.inl hp⟩
  · exact ⟨hu, Or.inl hp⟩
  · exact ⟨hu, Or.inr hm⟩

/-- Witness for C5 amended at totalBytes = 1000, Striped, diskCount = 4. -/
theorem C5_amended_witness :
    (⟨1000, 0, 0, 1000, 1⟩ : StorageOverhead).usable_bytes = 1000 ∧
    ((⟨1000, 0, 0, 1000, 1⟩ : StorageOverhead).parity_bytes = 0 ∨
     (⟨1000, 0, 0, 1000, 1⟩ : StorageOverhead).mirror_bytes = 0) :=
  C5_amended_overhead_invariant 1000 "RAID 0" 4 _ storage_overhead_1000_raid0

/-- C8: for every accepted input, `calculate_storage_overhead` returns the
per-scheme byte breakdown stated by the spec — Striped: usable = total,
parity = mirror = 0, totalRequired = total; Mirrored: mirror =
total·(diskCount−1), totalRequired = total·diskCount; ParityRotating: parity
= total/(diskCount−1), totalRequired = total + parity — and in every branch
the efficiency ratio equals `space_efficiency(diskCount, scheme)`. -/
theorem C8_storage_overhead_formulas (total : ℚ) (raid : String) (n : ℤ)
    (o : StorageOverhead)
    (h : calculate_storage_overhead total raid n = .ok o) :
    space_efficiency n raid = .ok o.efficiency_ratio ∧
    (raid = "RAID 0" → o.usable_bytes = total ∧ o.parity_bytes = 0 ∧
      o.mirror_bytes = 0 ∧ o.total_required_bytes = total) ∧
    (raid = "RAID 1" → o.usable_bytes = total ∧ o.parity_bytes = 0 ∧
      o.mirror_bytes = total * ((n : ℚ) - 1) ∧
      o.total_required_bytes = total * (n : ℚ)) ∧
    (raid = "RAID 5" → o.usable_bytes = total ∧ o.mirror_bytes = 0 ∧
      o.parity_bytes = total / ((n : ℚ) - 1) ∧
      o.total_required_bytes = total + total / ((n : ℚ) - 1)) := by
  obtain ⟨hu, hse, hc⟩ := storage_overhead_fields total raid n o h
  refine ⟨hse, ?_, ?_, ?_⟩ <;> intro hr <;> subst hr
  · rcases hc with ⟨-, hp, hm, ht, -⟩ | ⟨hbad, -⟩ | ⟨hbad, -⟩
    · exact ⟨hu, hp, hm, ht⟩
    · exact absurd hbad (by decide)
    · exact absurd hbad (by decide)
  · rcases hc with ⟨hbad, -⟩ | ⟨-, hp, hm, ht⟩ | ⟨hbad, -⟩
    · exact absurd hbad (by decide)
    · exact ⟨hu, hp, hm, ht⟩
    · exact absurd hbad (by decide)
  · rcases hc with ⟨hbad, -⟩ | ⟨hbad, -⟩ | ⟨-, hm, hp, ht⟩
    · exact absurd hbad (by decide)
    · exact absurd hbad (by decide)
    · exact ⟨hu, hm, hp, ht⟩

/-- Witness for C8 at totalBytes = 1000, Striped, diskCount = 4. -/
theorem C8_witness :
    space_efficiency 4 "RAID 0" =
      .ok (⟨1000, 0, 0, 1000, 1⟩ : StorageOverhead).efficiency_ratio ∧
    (⟨1000, 0, 0, 1000, 1⟩ : StorageOverhead).usable_bytes = 1000 ∧
    (⟨1000, 0, 0, 1000, 1⟩ : StorageOverhead).parity_bytes = 0 ∧
    (⟨1000, 0, 0, 1000, 1⟩ : StorageOverhead).mirror_bytes = 0 ∧
    (⟨1000, 0, 0, 1000, 1⟩ : StorageOverhead).total_required_bytes = 1000 :=
  (fun h => ⟨h.1, (h.2.1 rfl).1, (h.2.1 rfl).2.1, (h.2.1 rfl).2.2.1,
      (h.2.1 rfl).2.2.2⟩)
    (C8_storage_overhead_formulas 1000 "RAID 0" 4 _ storage_overhead_1000_raid0)

/-- C9: `estimate_access_time` returns, in seconds, sizeMB/(rate·n) for
Striped, the average of sizeMB/rate and sizeMB/(rate·n) for Mirrored, and
sizeMB/(rate·(n−1)·0.85) for ParityRotating, where sizeMB is
fileSizeBytes/(1024·1024). -/
theorem C9_estimate_access_time (fs : ℚ) (n : ℤ) (base : ℚ) :
    estimate_access_time fs n "RAID 0" base =
      (fs / (1024 * 1024)) / (base * (n : ℚ)) ∧
    estimate_access_time fs n "RAID 1" base =
      ((fs / (1024 * 1024)) / base +
        (fs / (1024 * 1024)) / (base * (n : ℚ))) / 2 ∧
    estimate_access_time fs n "RAID 5" base =
      (fs / (1024 * 1024)) / (base * ((n : ℚ) - 1) * (85 / 100)) := by
  refine ⟨?_, ?_, ?_⟩
  · rw [estimate_access_time]
    rw [if_pos rfl]
  · rw [estimate_access_time]
    rw [if_neg (show ¬ ("RAID 1" : String) = "RAID 0" by decide), if_pos rfl]
  · rw [estimate_access_time]
    rw [if_neg (show ¬ ("RAID 5" : String) = "RAID 0" by decide),
      if_neg (show ¬ ("RAID 5" : String) = "RAID 1" by decide), if_pos rfl]

/-- C6 counterexample: the performance functions do not raise for invalid
configurations — for the unrecognized scheme "RAID 9" with diskCount = 4,
parallel speedup silently returns 1, fault tolerance silently returns 0, and
access-time estimation silently falls back to the single-disk rate; for the
invalid diskCount = 1 with Striped, speedup returns 1 instead of failing. -/
theorem C6_counterexample :
    calculate_parallel_speedup 4 "RAID 9" = 1 ∧
    fault_tolerance_level "RAID 9" (some 4) = 0 ∧
    estimate_access_time (1024 * 1024) 4 "RAID 9" 100 = 1 / 100 ∧
    calculate_parallel_speedup 1 "RAID 0" = 1 := by
  refine ⟨?_, ?_, ?_, ?_⟩
  · rw [calculate_parallel_speedup,
      if_neg (show ¬ ("RAID 9" : String) = "RAID 0" by decide),
      if_neg (show ¬ ("RAID 9" : String) = "RAID 1" by decide),
      if_neg (show ¬ ("RAID 9" : String) = "RAID 5" by decide)]
  · rw [fault_tolerance_level,
      if_neg (show ¬ ("RAID 9" : String) = "RAID 0" by decide),
      if_neg (show ¬ ("RAID 9" : String) = "RAID 1" by decide),
      if_neg (show ¬ ("RAID 9" : String) = "RAID 5" by decide)]
  · rw [estimate_access_time]
    rw [if_neg (show ¬ ("RAID 9" : String) = "RAID 0" by decide),
      if_neg (show ¬ ("RAID 9" : String) = "RAID 1" by decide),
      if_neg (show ¬ ("RAID 9" : String) = "RAID 5" by decide)]
    norm_num
  · rw [calculate_parallel_speedup, if_pos rfl]
    norm_num

/-- C6 amended: the PerformanceModel functions perform no configuration
validation: for every unrecognized scheme, parallel speedup silently returns
1, fault tolerance silently returns 0, and access-time estimation silently
falls back to the single-disk rate — for every diskCount, which is never
checked. -/
theorem C6_amended_silent_defaults (n : ℤ) (raid : String)
    (h0 : raid ≠ "RAID 0") (h1 : raid ≠ "RAID 1") (h5 : raid ≠ "RAID 5") :
    calculate_parallel_speedup n raid = 1 ∧
    fault_tolerance_level raid (some n) = 0 ∧
    ∀ fs base : ℚ, estimate_access_time fs n raid base =
      fs / (1024 * 1024) / base := by
  refine ⟨?_, ?_, fun fs base => ?_⟩
  · rw [calculate_parallel_speedup, if_neg h0, if_neg h1, if_neg h5]
  · rw [fault_tolerance_level, if_neg h0, if_neg h1, if_neg h5]
  · rw [estimate_access_time]
    rw [if_neg h0, if_neg h1, if_neg h5]

/-- Witness for C6 amended at scheme "RAID 9", diskCount = 4, a 1 MiB file
at 100 MB/s. -/
theorem C6_amended_witness :
    calculate_parallel_speedup 4 "RAID 9" = 1 ∧
    fault_tolerance_level "RAID 9" (some 4) = 0 ∧
    estimate_access_time (1024 * 1024) 4 "RAID 9" 100 =
      (1024 * 1024 : ℚ) / (1024 * 1024) / 100 :=
  (fun h => ⟨h.1, h.2.1, h.2.2 (1024 * 1024) 100⟩)
    (C6_amended_silent_defaults 4 "RAID 9" (by decide) (by decide) (by decide))

/-- Helper: `getD` after `set` at an in-range index. -/
theorem getD_set_eq (l : List ℕ) (i j v : ℕ) (hi : i < l.length) :
    (l.set i v).getD j 0 = if j = i then v else l.getD j 0 := by
  induction l generalizing i j with
  | nil => simp at hi
  | cons x xs ih =>
    cases i with
    | zero =>
      cases j with
      | zero => simp [List.set]
      | succ j' => simp [List.set]
    | succ i' =>
      cases j with
      | zero => simp [List.set]
      | succ j' =>
        simp only [List.set, List.getD_cons_succ]
        rw [ih i' j' (by simpa using hi)]
        simp only [Nat.succ_inj]

/-- Helper: summing after bumping one in-range entry adds the bump. -/
theorem sum_set_add (l : List ℕ) (i s : ℕ) (hi : i < l.length) :
    (l.set i (l.getD i 0 + s)).sum = l.sum + s := by
  induction l generalizing i with
  | nil => simp at hi
  | cons x xs ih =>
    cases i with
    | zero => simp [List.set]; omega
    | succ i' =>
      simp only [List.set, List.getD_cons_succ, List.sum_cons]
      rw [ih i' (by simpa using hi)]
      omega

/-- Helper: the greedy fold of `argminLoad` stays inside the candidate
list. -/
theorem argmin_fold_mem (loads : List ℕ) (cs : List ℕ) (c : ℕ) :
    cs.foldl (fun best d =>
      if loads.getD d 0 < loads.getD best 0 then d else best) c ∈ c :: cs := by
  induction cs generalizing c with
  | nil => simp
  | cons d ds ih =>
    simp only [List.foldl_cons]
    by_cases h : loads.getD d 0 < loads.getD c 0
    · rw [if_pos h]
      have := ih d
      simp only [List.mem_cons] at this ⊢
      tauto
    · rw [if_neg h]
      have := ih c
      simp only [List.mem_cons] at this ⊢
      tauto

/-- Helper: the greedy fold of `argminLoad` attains the minimum load among
the accumulator and the candidate list. -/
theorem argmin_fold_min (loads : List ℕ) (cs : List ℕ) (c : ℕ) :
    loads.getD (cs.foldl (fun best d =>
      if loads.getD d 0 < loads.getD best 0 then d else best) c) 0 ≤
      loads.getD c 0 ∧
    ∀ d ∈ cs, loads.getD (cs.foldl (fun best d =>
      if loads.getD d 0 < loads.getD best 0 then d else best) c) 0 ≤
        loads.getD d 0 := by
  induction cs generalizing c with
  | nil => simp
  | cons d ds ih =>
    simp only [List.foldl_cons]
    by_cases h : loads.getD d 0 < loads.getD c 0
    · rw [if_pos h]
      obtain ⟨h1, h2⟩ := ih d
      refine ⟨by omega, fun x hx => ?_⟩
      rcases List.mem_cons.mp hx with rfl | hx
      · exact h1
      · exact h2 x hx
    · rw [if_neg h]
      obtain ⟨h1, h2⟩ := ih c
      refine ⟨h1, fun x hx => ?_⟩
      rcases List.mem_cons.mp hx with rfl | hx
      · omega
      · exact h2 x hx

/-- Helper: `argminLoad` returns a member of a nonempty candidate list. -/
theorem argminLoad_mem (loads : List ℕ) (c : ℕ) (cs : List ℕ) :
    argminLoad loads (c :: cs) ∈ c :: cs :=
  argmin_fold_mem loads cs c

/-- Helper: `argminLoad` minimises the load over the candidate list. -/
theorem argminLoad_min (loads : List ℕ) (c : ℕ) (cs : List ℕ) :
    ∀ d ∈ c :: cs, loads.getD (argminLoad loads (c :: cs)) 0 ≤ loads.getD d 0 := by
  intro d hd
  obtain ⟨h1, h2⟩ := argmin_fold_min loads cs c
  rcases List.mem_cons.mp hd with rfl | hd
  · exact h1
  · exact h2 d hd

/-- Helper: under Striped the candidate list is every disk. -/
theorem candidates_raid0 (num idx : ℕ) :
    (List.range num).filter
      (fun d => ("RAID 0" : String) != "RAID 5" || d != idx % num) =
      List.range num := by
  simp

/-- Helper: under ParityRotating the candidate list is every disk except the
parity disk `idx % num`. -/
theorem candidates_raid5 (num idx : ℕ) :
    (List.range num).filter
      (fun d => ("RAID 5" : String) != "RAID 5" || d != idx % num) =
      (List.range num).filter (fun d => d != idx % num) := by
  simp

/-- Helper: with at least two disks, the ParityRotating candidate list is
nonempty: it contains disk 1 when the parity disk is 0, else disk 0. -/
theorem candidates_raid5_ne (num idx : ℕ) (h2 : 2 ≤ num) :
    (if idx % num = 0 then 1 else 0) ∈
      (List.range num).filter (fun d => d != idx % num) := by
  by_cases h : idx % num = 0
  · rw [if_pos h]
    refine List.mem_filter.mpr ⟨List.mem_range.mpr (by omega), ?_⟩
    simp [h]
  · rw [if_neg h]
    refine List.mem_filter.mpr ⟨List.mem_range.mpr (by omega), ?_⟩
    simp
    omega

/-- Helper: `place_one` preserves the number of disks in the load vector. -/
theorem place_one_loads_length (raid : String) (num idx size : ℕ)
    (st : PlaceState) :
    (place_one raid num idx size st).loads.length = st.loads.length := by
  rw [place_one]
  split_ifs <;> simp

/-- Helper: `placeFrom` preserves the number of disks in the load vector. -/
theorem placeFrom_loads_length (raid : String) (num : ℕ) (sizes : List ℕ) :
    ∀ (idx : ℕ) (st : PlaceState),
      (placeFrom raid num idx sizes st).loads.length = st.loads.length := by
  induction sizes with
  | nil => intro idx st; rfl
  | cons s rest ih =>
    intro idx st
    rw [placeFrom, ih, place_one_loads_length]

/-- Helper: `placeFrom` only appends to the recorded assignments. -/
theorem placeFrom_assignments_extend (raid : String) (num : ℕ)
    (sizes : List ℕ) :
    ∀ (idx : ℕ) (st : PlaceState), ∃ tail,
      (placeFrom raid num idx sizes st).assignments =
        st.assignments ++ tail := by
  induction sizes with
  | nil => exact fun idx st => ⟨[], by simp [placeFrom]⟩
  | cons s rest ih =>
    intro idx st
    obtain ⟨tail, ht⟩ := ih (idx + 1) (place_one raid num idx s st)
    rw [placeFrom, ht]
    by_cases hr : raid = "RAID 1"
    · rw [place_one, if_pos hr]
      exact ⟨List.range num :: tail, by simp⟩
    · rw [place_one, if_neg hr]
      exact ⟨[argminLoad st.loads ((List.range num).filter
        (fun d => raid != "RAID 5" || d != idx % num))] :: tail, by simp⟩

/-- Helper: `placeFrom` only appends to the recorded parity markers. -/
theorem placeFrom_markers_extend (raid : String) (num : ℕ)
    (sizes : List ℕ) :
    ∀ (idx : ℕ) (st : PlaceState), ∃ tail,
      (placeFrom raid num idx sizes st).markers = st.markers ++ tail := by
  induction sizes with
  | nil => exact fun idx st => ⟨[], by simp [placeFrom]⟩
  | cons s rest ih =>
    intro idx st
    obtain ⟨tail, ht⟩ := ih (idx + 1) (place_one raid num idx s st)
    rw [placeFrom, ht]
    by_cases hr : raid = "RAID 1"
    · rw [place_one, if_pos hr]
      exact ⟨tail, by simp⟩
    · rw [place_one, if_neg hr]
      by_cases h5 : raid = "RAID 5"
      · exact ⟨(idx % num, argminLoad st.loads ((List.range num).filter
          (fun d => raid != "RAID 5" || d != idx % num))) :: tail,
          by simp [if_pos h5]⟩
      · exact ⟨tail, by simp [if_neg h5]⟩

/-- Helper: the target chosen by the data-placement branch is a member of
the candidate list, provided there are at least two disks. -/
theorem target_mem (raid : String) (num idx : ℕ) (h2 : 2 ≤ num)
    (loads : List ℕ) :
    argminLoad loads ((List.range num).filter
      (fun d => raid != "RAID 5" || d != idx % num)) ∈
      (List.range num).filter (fun d => raid != "RAID 5" || d != idx % num) := by
  have hne : (List.range num).filter
      (fun d => raid != "RAID 5" || d != idx % num) ≠ [] := by
    by_cases h5 : raid = "RAID 5"
    · subst h5
      rw [candidates_raid5]
      exact List.ne_nil_of_mem (candidates_raid5_ne num idx h2)
    · have hb : (raid != "RAID 5") = true := by
        simpa using h5
      have h0 : (0 : ℕ) ∈ (List.range num).filter
          (fun d => raid != "RAID 5" || d != idx % num) := by
        refine List.mem_filter.mpr ⟨List.mem_range.mpr (by omega), ?_⟩
        rw [hb]
        simp
      exact List.ne_nil_of_mem h0
  cases hc : (List.range num).filter
      (fun d => raid != "RAID 5" || d != idx % num) with
  | nil => exact absurd hc hne
  | cons c cs =>
    exact argminLoad_mem loads c cs

/-- Helper: the chosen target is a valid disk index. -/
theorem target_lt (raid : String) (num idx : ℕ) (h2 : 2 ≤ num)
    (loads : List ℕ) :
    argminLoad loads ((List.range num).filter
      (fun d => raid != "RAID 5" || d != idx % num)) < num :=
  List.mem_range.mp (List.mem_filter.mp (target_mem raid num idx h2 loads)).1

/-- Helper: one non-mirrored placement step adds exactly the item size to
the total load. -/
theorem place_one_sum (raid : String) (hr : raid ≠ "RAID 1") (num idx s : ℕ)
    (h2 : 2 ≤ num) (st : PlaceState) (hlen : st.loads.length = num) :
    (place_one raid num idx s st).loads.sum = st.loads.sum + s := by
  rw [place_one, if_neg hr]
  dsimp only
  exact sum_set_add st.loads _ s (by rw [hlen]; exact target_lt raid num idx h2 st.loads)

/-- Helper: the non-mirrored placement loop adds exactly the total item size
to the total load. -/
theorem placeFrom_sum (raid : String) (hr : raid ≠ "RAID 1") (num : ℕ)
    (h2 : 2 ≤ num) (sizes : List ℕ) :
    ∀ (idx : ℕ) (st : PlaceState), st.loads.length = num →
      (placeFrom raid num idx sizes st).loads.sum = st.loads.sum + sizes.sum := by
  induction sizes with
  | nil =>
    intro idx st hlen
    simp [placeFrom]
  | cons s rest ih =>
    intro idx st hlen
    rw [placeFrom]
    rw [ih (idx + 1) (place_one raid num idx s st)
      (by rw [place_one_loads_length]; exact hlen)]
    rw [place_one_sum raid hr num idx s h2 st hlen]
    simp only [List.sum_cons]
    omega

/-- Helper: the non-mirrored placement loop records every item on exactly
one disk. -/
theorem placeFrom_assign_one (raid : String) (hr : raid ≠ "RAID 1") (num : ℕ)
    (sizes : List ℕ) :
    ∀ (idx : ℕ) (st : PlaceState),
      (∀ t ∈ st.assignments, t.length = 1) →
      ∀ t ∈ (placeFrom raid num idx sizes st).assignments, t.length = 1 := by
  induction sizes with
  | nil =>
    intro idx st hst
    simpa [placeFrom] using hst
  | cons s rest ih =>
    intro idx st hst
    rw [placeFrom]
    refine ih (idx + 1) (place_one raid num idx s st) ?_
    intro t ht
    rw [place_one, if_neg hr] at ht
    dsimp only at ht
    rcases List.mem_append.mp ht with ht | ht
    · exact hst t ht
    · rcases List.mem_singleton.mp ht with rfl
      rfl

/-- Helper: the mirrored placement loop keeps every disk's load equal to the
running total of item sizes. -/
theorem placeFrom_mirror_loads (num : ℕ) (sizes : List ℕ) :
    ∀ (idx : ℕ) (st : PlaceState) (L : ℕ), st.loads = List.replicate num L →
      (placeFrom "RAID 1" num idx sizes st).loads =
        List.replicate num (L + sizes.sum) := by
  induction sizes with
  | nil =>
    intro idx st L hst
    simpa [placeFrom] using hst
  | cons s rest ih =>
    intro idx st L hst
    rw [placeFrom]
    rw [ih (idx + 1) (place_one "RAID 1" num idx s st) (L + s)
      (by rw [place_one, if_pos rfl]; dsimp only; rw [hst]; simp [List.map_replicate])]
    simp only [List.sum_cons]
    congr 1
    omega

/-- Helper: the mirrored placement loop records every item on every disk. -/
theorem placeFrom_mirror_assign (num : ℕ) (sizes : List ℕ) :
    ∀ (idx : ℕ) (st : PlaceState),
      (∀ t ∈ st.assignments, t = List.range num) →
      ∀ t ∈ (placeFrom "RAID 1" num idx sizes st).assignments,
        t = List.range num := by
  induction sizes with
  | nil =>
    intro idx st hst
    simpa [placeFrom] using hst
  | cons s rest ih =>
    intro idx st hst
    rw [placeFrom]
    refine ih (idx + 1) (place_one "RAID 1" num idx s st) ?_
    intro t ht
    rw [place_one, if_pos rfl] at ht
    dsimp only at ht
    rcases List.mem_append.mp ht with ht | ht
    · exact hst t ht
    · exact List.mem_singleton.mp ht

/-- C10: placement conserves bytes — under Striped and ParityRotating each
item is recorded on exactly one data disk and the disk loads sum to the
total item size; under Mirrored every disk's final load equals the total
item size and every item is recorded on every disk exactly once. -/
theorem C10_placement_conserves_bytes (num : ℕ) (h2 : 2 ≤ num)
    (sizes : List ℕ) :
    ((build_virtual_disks "RAID 0" num sizes).loads.sum = sizes.sum ∧
      ∀ t ∈ (build_virtual_disks "RAID 0" num sizes).assignments,
        t.length = 1) ∧
    ((build_virtual_disks "RAID 5" num sizes).loads.sum = sizes.sum ∧
      ∀ t ∈ (build_virtual_disks "RAID 5" num sizes).assignments,
        t.length = 1) ∧
    ((build_virtual_disks "RAID 1" num sizes).loads =
        List.replicate num sizes.sum ∧
      ∀ t ∈ (build_virtual_disks "RAID 1" num sizes).assignments,
        t = List.range num) := by
  refine ⟨⟨?_, ?_⟩, ⟨?_, ?_⟩, ?_, ?_⟩
  · rw [build_virtual_disks,
      placeFrom_sum "RAID 0" (by decide) num h2 sizes 0 _ (by simp)]
    simp
  · exact placeFrom_assign_one "RAID 0" (by decide) num sizes 0 _ (by simp)
  · rw [build_virtual_disks,
      placeFrom_sum "RAID 5" (by decide) num h2 sizes 0 _ (by simp)]
    simp
  · exact placeFrom_assign_one "RAID 5" (by decide) num sizes 0 _ (by simp)
  · rw [build_virtual_disks,
      placeFrom_mirror_loads num sizes 0 _ 0 (by simp)]
    simp
  · exact placeFrom_mirror_assign num sizes 0 _ (by simp)

/-- Witness for C10 at 2 disks and items of sizes 5 and 7. -/
theorem C10_witness :
    (build_virtual_disks "RAID 0" 2 [5, 7]).loads.sum = [5, 7].sum ∧
    (build_virtual_disks "RAID 5" 2 [5, 7]).loads.sum = [5, 7].sum ∧
    (build_virtual_disks "RAID 1" 2 [5, 7]).loads =
      List.replicate 2 [5, 7].sum :=
  (fun h => ⟨h.1.1, h.2.1.1, h.2.2.1⟩)
    (C10_placement_conserves_bytes 2 (by norm_num) [5, 7])

/-- Helper: under ParityRotating the chosen data disk is never the parity
disk `idx % num`. -/
theorem target_ne_parity (num idx : ℕ) (h2 : 2 ≤ num) (loads : List ℕ) :
    argminLoad loads ((List.range num).filter
      (fun d => ("RAID 5" : String) != "RAID 5" || d != idx % num)) ≠
      idx % num := by
  have hmem := target_mem "RAID 5" num idx h2 loads
  have hp := (List.mem_filter.mp hmem).2
  intro hcontra
  rw [hcontra] at hp
  simp at hp

/-- Helper: one ParityRotating step appends exactly the marker
`(idx % num, target)`. -/
theorem place_one_raid5_markers (num idx s : ℕ) (st : PlaceState) :
    (place_one "RAID 5" num idx s st).markers =
      st.markers ++ [(idx % num, argminLoad st.loads ((List.range num).filter
        (fun d => ("RAID 5" : String) != "RAID 5" || d != idx % num)))] := by
  rw [place_one, if_neg (by decide)]
  dsimp only
  rw [if_pos rfl]

/-- Helper: the ParityRotating loop starting at item index `idx` appends one
marker per item; the marker for the `k`-th processed item carries parity
disk `(idx + k) % num` and a data disk that is a different valid disk. -/
theorem placeFrom_markers_spec (num : ℕ) (h2 : 2 ≤ num) (sizes : List ℕ) :
    ∀ (idx : ℕ) (st : PlaceState),
      ((placeFrom "RAID 5" num idx sizes st).markers.length =
        st.markers.length + sizes.length) ∧
      ∀ k, k < sizes.length →
        ∃ t, t < num ∧ t ≠ (idx + k) % num ∧
          (placeFrom "RAID 5" num idx sizes st).markers.getD
            (st.markers.length + k) (0, 0) = ((idx + k) % num, t) := by
  induction sizes with
  | nil =>
    intro idx st
    refine ⟨by simp [placeFrom], fun k hk => absurd hk (by simp)⟩
  | cons s rest ih =>
    intro idx st
    obtain ⟨ihlen, ihspec⟩ := ih (idx + 1) (place_one "RAID 5" num idx s st)
    have hm : (place_one "RAID 5" num idx s st).markers.length =
        st.markers.length + 1 := by
      rw [place_one_raid5_markers]
      simp
    constructor
    · rw [placeFrom, ihlen, hm]
      simp only [List.length_cons]
      omega
    · intro k hk
      cases k with
      | zero =>
        obtain ⟨tail, htail⟩ := placeFrom_markers_extend "RAID 5" num rest
          (idx + 1) (place_one "RAID 5" num idx s st)
        refine ⟨argminLoad st.loads ((List.range num).filter
          (fun d => ("RAID 5" : String) != "RAID 5" || d != idx % num)),
          target_lt "RAID 5" num idx h2 st.loads, ?_, ?_⟩
        · simpa using target_ne_parity num idx h2 st.loads
        · rw [placeFrom, htail, place_one_raid5_markers]
          rw [List.getD_append _ _ _ _ (by simp)]
          rw [List.getD_append_right _ _ _ _ (by simp)]
          simp
      | succ k' =>
        obtain ⟨t, htlt, htne, hteq⟩ := ihspec k' (by
          simpa using Nat.lt_of_succ_lt_succ hk)
        refine ⟨t, htlt, ?_, ?_⟩
        · have : idx + 1 + k' = idx + (k' + 1) := by omega
          rwa [this] at htne
        · rw [placeFrom]
          have hpos : (place_one "RAID 5" num idx s st).markers.length + k' =
              st.markers.length + (k' + 1) := by
            rw [hm]; omega
          have harg : idx + 1 + k' = idx + (k' + 1) := by omega
          rw [hpos, harg] at hteq
          exact hteq

/-- Helper: for positive `num` and any window start `i`, each residue
`d < num` is hit by `(i + j) % num` for exactly one offset `j < num`. -/
theorem mod_rotation (num i d : ℕ) (hn : 0 < num) (hd : d < num) :
    ∃! j, j < num ∧ (i + j) % num = d := by
  have hr : i % num < num := Nat.mod_lt _ hn
  have hj0lt : (num + d - i % num) % num < num := Nat.mod_lt _ hn
  have hmod : (i + (num + d - i % num) % num) % num = d := by
    rw [Nat.add_mod, Nat.mod_eq_of_lt hj0lt]
    by_cases hc : i % num ≤ d
    · have h1 : (num + d - i % num) % num = d - i % num := by
        have h2 : num + d - i % num = num + (d - i % num) := by omega
        rw [h2, Nat.add_mod_left, Nat.mod_eq_of_lt (by omega)]
      rw [h1]
      have h3 : i % num + (d - i % num) = d := by omega
      rw [h3, Nat.mod_eq_of_lt hd]
    · have h1 : (num + d - i % num) % num = num + d - i % num :=
        Nat.mod_eq_of_lt (by omega)
      rw [h1]
      have h2 : i % num + (num + d - i % num) = num + d := by omega
      rw [h2, Nat.add_mod_left, Nat.mod_eq_of_lt hd]
  refine ⟨(num + d - i % num) % num, ⟨hj0lt, hmod⟩, ?_⟩
  intro j hj
  obtain ⟨hjlt, hjeq⟩ := hj
  have heq : (i + j) % num = (i + (num + d - i % num) % num) % num := by
    rw [hjeq, hmod]
  have hcan : j % num = (num + d - i % num) % num % num :=
    Nat.ModEq.add_left_cancel' i heq
  rwa [Nat.mod_eq_of_lt hjlt, Nat.mod_eq_of_lt hj0lt] at hcan

/-- C3: for every valid ParityRotating configuration, the item at sequence
position i is assigned parity disk i mod diskCount, its data disk is a valid
disk different from its parity disk, and over any diskCount consecutive
items each disk serves as parity exactly once. -/
theorem C3_parity_rotation (num : ℕ) (h3 : 3 ≤ num) (sizes : List ℕ) :
    (build_virtual_disks "RAID 5" num sizes).markers.length = sizes.length ∧
    (∀ k, k < sizes.length →
      ((build_virtual_disks "RAID 5" num sizes).markers.getD k (0, 0)).1 =
        k % num ∧
      ((build_virtual_disks "RAID 5" num sizes).markers.getD k (0, 0)).2 ≠
        ((build_virtual_disks "RAID 5" num sizes).markers.getD k (0, 0)).1) ∧
    (∀ i d, i + num ≤ sizes.length → d < num →
      ∃! j, j < num ∧
        ((build_virtual_disks "RAID 5" num sizes).markers.getD
          (i + j) (0, 0)).1 = d) := by
  have h2 : 2 ≤ num := by omega
  obtain ⟨hlen, hspec⟩ := placeFrom_markers_spec num h2 sizes 0
    ⟨List.replicate num 0, [], []⟩
  have hlen' : (build_virtual_disks "RAID 5" num sizes).markers.length =
      sizes.length := by
    rw [build_virtual_disks]
    simpa using hlen
  have hspec' : ∀ k, k < sizes.length →
      ∃ t, t < num ∧ t ≠ k % num ∧
        (build_virtual_disks "RAID 5" num sizes).markers.getD k (0, 0) =
          (k % num, t) := by
    intro k hk
    obtain ⟨t, ht1, ht2, ht3⟩ := hspec k hk
    refine ⟨t, ht1, by simpa using ht2, ?_⟩
    rw [build_virtual_disks]
    simpa using ht3
  refine ⟨hlen', fun k hk => ?_, fun i d hi hd => ?_⟩
  · obtain ⟨t, ht1, ht2, ht3⟩ := hspec' k hk
    rw [ht3]
    exact ⟨rfl, ht2⟩
  · obtain ⟨j0, ⟨hj0lt, hj0eq⟩, huniq⟩ := mod_rotation num i d (by omega) hd
    refine ⟨j0, ⟨hj0lt, ?_⟩, ?_⟩
    · obtain ⟨t, -, -, ht3⟩ := hspec' (i + j0) (by omega)
      rw [ht3]
      exact hj0eq
    · intro j hj
      obtain ⟨hjlt, hjeq⟩ := hj
      obtain ⟨t, -, -, ht3⟩ := hspec' (i + j) (by omega)
      rw [ht3] at hjeq
      exact huniq j ⟨hjlt, hjeq⟩

/-- Witness for C3 at 3 disks and 3 items of 10 bytes, checked at sequence
position 1. -/
theorem C3_witness :
    (build_virtual_disks "RAID 5" 3 [10, 10, 10]).markers.length =
      [10, 10, 10].length ∧
    ((build_virtual_disks "RAID 5" 3 [10, 10, 10]).markers.getD
      1 (0, 0)).1 = 1 % 3 ∧
    ((build_virtual_disks "RAID 5" 3 [10, 10, 10]).markers.getD
      1 (0, 0)).2 ≠
      ((build_virtual_disks "RAID 5" 3 [10, 10, 10]).markers.getD
        1 (0, 0)).1 :=
  (fun h => ⟨h.1, (h.2.1 1 (by norm_num)).1, (h.2.1 1 (by norm_num)).2⟩)
    (C3_parity_rotation 3 (by norm_num) [10, 10, 10])

/-- C4 counterexample: for diskCount = 4, ParityRotating, 4 items of 100
bytes, each item lands whole on a single data disk, so every disk ends with
100 bytes — not 300 bytes as the claim states. -/
theorem C4_counterexample :
    (build_virtual_disks "RAID 5" 4 [100, 100, 100, 100]).loads =
      [100, 100, 100, 100] ∧
    (build_virtual_disks "RAID 5" 4 [100, 100, 100, 100]).loads.getD 0 0 ≠
      300 := by
  decide

/-- C4 amended: for diskCount = 4, ParityRotating, 4 items of 100 bytes
processed in order, each disk is the parity disk exactly once, each disk
receives exactly one data placement of 100 bytes, and every disk ends with
exactly 100 bytes of load (perfectly balanced). -/
theorem C4_amended_balanced_rotation :
    (build_virtual_disks "RAID 5" 4 [100, 100, 100, 100]).markers.map
      Prod.fst = [0, 1, 2, 3] ∧
    (build_virtual_disks "RAID 5" 4 [100, 100, 100, 100]).assignments.countP
      (fun t => t.contains 0) = 1 ∧
    (build_virtual_disks "RAID 5" 4 [100, 100, 100, 100]).assignments.countP
      (fun t => t.contains 1) = 1 ∧
    (build_virtual_disks "RAID 5" 4 [100, 100, 100, 100]).assignments.countP
      (fun t => t.contains 2) = 1 ∧
    (build_virtual_disks "RAID 5" 4 [100, 100, 100, 100]).assignments.countP
      (fun t => t.contains 3) = 1 ∧
    (build_virtual_disks "RAID 5" 4 [100, 100, 100, 100]).loads =
      [100, 100, 100, 100] := by
  decide

/-- C2 counterexample: under ParityRotating with 3 disks and items of sizes
10, 10, 10, the final loads are 20, 10, 0: disks 0 and 2 differ by 20 while
the largest single item routed to either disk is 10, so the claimed two-disk
load-balance bound fails. -/
theorem C2_counterexample :
    (build_virtual_disks "RAID 5" 3 [10, 10, 10]).loads.getD 0 0 -
        (build_virtual_disks "RAID 5" 3 [10, 10, 10]).loads.getD 2 0 >
      max (maxRouted [10, 10, 10]
            (build_virtual_disks "RAID 5" 3 [10, 10, 10]).assignments 0)
          (maxRouted [10, 10, 10]
            (build_virtual_disks "RAID 5" 3 [10, 10, 10]).assignments 2) := by
  decide

/-- Helper: `argminLoad` returns a member of any nonempty candidate list. -/
theorem argminLoad_mem_of_ne (loads : List ℕ) (l : List ℕ) (h : l ≠ []) :
    argminLoad loads l ∈ l := by
  cases l with
  | nil => exact absurd rfl h
  | cons c cs => exact argminLoad_mem loads c cs

/-- Helper: `argminLoad` minimises the load over any nonempty candidate
list. -/
theorem argminLoad_min_of_ne (loads : List ℕ) (l : List ℕ) (h : l ≠ []) :
    ∀ d ∈ l, loads.getD (argminLoad loads l) 0 ≤ loads.getD d 0 := by
  cases l with
  | nil => exact absurd rfl h
  | cons c cs => exact argminLoad_min loads c cs

/-- Helper: a fold of `max` is bounded by any bound on the list
elements. -/
theorem foldr_max_le (l : List ℕ) (s : ℕ) (h : ∀ x ∈ l, x ≤ s) :
    l.foldr max 0 ≤ s := by
  induction l with
  | nil => simp
  | cons a as ih =>
    simp only [List.foldr_cons]
    exact max_le (h a (by simp)) (ih fun x hx => h x (List.mem_cons_of_mem a hx))

/-- Helper: a fold of `max` over an append is the max of the two folds. -/
theorem foldr_max_append (l1 l2 : List ℕ) :
    (l1 ++ l2).foldr max 0 = max (l1.foldr max 0) (l2.foldr max 0) := by
  induction l1 with
  | nil => simp
  | cons a as ih =>
    simp only [List.cons_append, List.foldr_cons, ih]
    exact (Nat.max_assoc a _ _).symm

/-- Helper: the sizes routed to disk `d` after recording one more item on
target list `ts`. -/
theorem routedSizes_append_one (prev : List ℕ) (assigns : List (List ℕ))
    (h : prev.length = assigns.length) (s : ℕ) (ts : List ℕ) (d : ℕ) :
    routedSizes (prev ++ [s]) (assigns ++ [ts]) d =
      routedSizes prev assigns d ++ (if d ∈ ts then [s] else []) := by
  rw [routedSizes, routedSizes, List.zip_append h, List.filterMap_append]
  congr 1
  by_cases hd : d ∈ ts
  · simp [List.zip, hd]
  · simp [List.zip, hd]

/-- Helper: the largest routed size after recording one more item on target
list `ts`. -/
theorem maxRouted_append_one (prev : List ℕ) (assigns : List (List ℕ))
    (h : prev.length = assigns.length) (s : ℕ) (ts : List ℕ) (d : ℕ) :
    maxRouted (prev ++ [s]) (assigns ++ [ts]) d =
      if d ∈ ts then max (maxRouted prev assigns d) s
      else maxRouted prev assigns d := by
  rw [maxRouted, routedSizes_append_one prev assigns h s ts d, foldr_max_append]
  by_cases hd : d ∈ ts
  · rw [if_pos hd, if_pos hd, maxRouted]
    simp
  · rw [if_neg hd, if_neg hd, maxRouted]
    simp

/-- Helper: every size routed to a disk is one of the item sizes. -/
theorem routedSizes_mem (sizes : List ℕ) (assigns : List (List ℕ)) (d x : ℕ)
    (hx : x ∈ routedSizes sizes assigns d) : x ∈ sizes := by
  rw [routedSizes] at hx
  obtain ⟨p, hp, hpe⟩ := List.mem_filterMap.mp hx
  by_cases hd : d ∈ p.2
  · rw [if_pos hd] at hpe
    obtain rfl : p.1 = x := Option.some.inj hpe
    exact (List.of_mem_zip hp).1
  · rw [if_neg hd] at hpe
    exact Option.noConfusion hpe

/-- Helper: the greedy invariant of the Striped placement loop — at every
point, any disk's load exceeds any other disk's load by at most the largest
single item routed to the former. -/
theorem greedy_striped_invariant (num : ℕ) (hn : 0 < num) (sizes : List ℕ) :
    ∀ (idx : ℕ) (st : PlaceState) (prev : List ℕ),
      st.loads.length = num →
      prev.length = st.assignments.length →
      (∀ a b, a < num → b < num →
        st.loads.getD a 0 ≤ st.loads.getD b 0 +
          maxRouted prev st.assignments a) →
      ∀ a b, a < num → b < num →
        (placeFrom "RAID 0" num idx sizes st).loads.getD a 0 ≤
          (placeFrom "RAID 0" num idx sizes st).loads.getD b 0 +
            maxRouted (prev ++ sizes)
              (placeFrom "RAID 0" num idx sizes st).assignments a := by
  induction sizes with
  | nil =>
    intro idx st prev hlen halen hinv a b ha hb
    simpa [placeFrom] using hinv a b ha hb
  | cons s rest ih =>
    intro idx st prev hlen halen hinv a b ha hb
    have hrange : List.range num ≠ [] := by
      simp only [ne_eq, List.range_eq_nil]
      omega
    have hcand := candidates_raid0 num idx
    set t := argminLoad st.loads ((List.range num).filter
        (fun d => ("RAID 0" : String) != "RAID 5" || d != idx % num)) with hT
    have htmem : t ∈ List.range num := by
      rw [hT, hcand]
      exact argminLoad_mem_of_ne st.loads (List.range num) hrange
    have htlt : t < num := List.mem_range.mp htmem
    have hmin : ∀ d, d < num → st.loads.getD t 0 ≤ st.loads.getD d 0 := by
      intro d hd
      rw [hT, hcand]
      exact argminLoad_min_of_ne st.loads (List.range num) hrange d
        (List.mem_range.mpr hd)
    have hst' : place_one "RAID 0" num idx s st =
        ⟨st.loads.set t (st.loads.getD t 0 + s),
         st.assignments ++ [[t]], st.markers⟩ := by
      rw [place_one, if_neg (by decide)]
      dsimp only
      rw [if_neg (by decide), hT]
    rw [placeFrom, hst']
    have hlen' : (st.loads.set t (st.loads.getD t 0 + s)).length = num := by
      rw [List.length_set]
      exact hlen
    have halen' : (prev ++ [s]).length = (st.assignments ++ [[t]]).length := by
      simp [halen]
    have hinv' : ∀ a' b', a' < num → b' < num →
        (st.loads.set t (st.loads.getD t 0 + s)).getD a' 0 ≤
          (st.loads.set t (st.loads.getD t 0 + s)).getD b' 0 +
            maxRouted (prev ++ [s]) (st.assignments ++ [[t]]) a' := by
      intro a' b' ha' hb'
      rw [getD_set_eq st.loads t a' _ (by omega),
        getD_set_eq st.loads t b' _ (by omega),
        maxRouted_append_one prev st.assignments halen s [t] a']
      by_cases hat : a' = t <;> by_cases hbt : b' = t
      · rw [if_pos hat, if_pos hbt, if_pos (by simp [hat])]
        omega
      · rw [if_pos hat, if_neg hbt, if_pos (by simp [hat])]
        have h1 := hmin b' hb'
        have h2 : s ≤ max (maxRouted prev st.assignments a') s :=
          le_max_right _ _
        subst hat
        omega
      · rw [if_neg hat, if_pos hbt, if_neg (by simp [hat])]
        have h1 := hinv a' t ha' htlt
        omega
      · rw [if_neg hat, if_neg hbt, if_neg (by simp [hat])]
        have h1 := hinv a' b' ha' hb'
        omega
    have hfin := ih (idx + 1) ⟨st.loads.set t (st.loads.getD t 0 + s),
        st.assignments ++ [[t]], st.markers⟩ (prev ++ [s]) hlen' halen'
        hinv' a b ha hb
    have happ : (prev ++ [s]) ++ rest = prev ++ (s :: rest) := by simp
    rwa [happ] at hfin

/-- C2 amended: under Striped, after the placement loop finishes, any two
disks' final loads differ by at most the largest single item size routed to
either disk; in particular, after placing any batch of same-size items under
Striped, any two loads differ by at most one item size. (Under
ParityRotating the two-disk bound fails.) -/
theorem C2_amended_striped_load_balance (num : ℕ) (sizes : List ℕ)
    (a b : ℕ) (ha : a < num) (hb : b < num) :
    |((build_virtual_disks "RAID 0" num sizes).loads.getD a 0 : ℤ) -
        ((build_virtual_disks "RAID 0" num sizes).loads.getD b 0 : ℤ)| ≤
      (max (maxRouted sizes
              (build_virtual_disks "RAID 0" num sizes).assignments a)
           (maxRouted sizes
              (build_virtual_disks "RAID 0" num sizes).assignments b) : ℤ) ∧
    ∀ s, (∀ x ∈ sizes, x = s) →
      (build_virtual_disks "RAID 0" num sizes).loads.getD a 0 ≤
        (build_virtual_disks "RAID 0" num sizes).loads.getD b 0 + s := by
  have hn : 0 < num := by omega
  have hinv0 : ∀ a' b', a' < num → b' < num →
      (⟨List.replicate num 0, [], []⟩ : PlaceState).loads.getD a' 0 ≤
        (⟨List.replicate num 0, [], []⟩ : PlaceState).loads.getD b' 0 +
          maxRouted [] (⟨List.replicate num 0, [], []⟩ : PlaceState).assignments
            a' := by
    intro a' b' _ _
    simp [maxRouted, routedSizes]
  have h1 := greedy_striped_invariant num hn sizes 0
    ⟨List.replicate num 0, [], []⟩ [] (by simp) (by simp) hinv0 a b ha hb
  have h2 := greedy_striped_invariant num hn sizes 0
    ⟨List.replicate num 0, [], []⟩ [] (by simp) (by simp) hinv0 b a hb ha
  simp only [List.nil_append] at h1 h2
  rw [build_virtual_disks]
  constructor
  · have hA : maxRouted sizes
        (placeFrom "RAID 0" num 0 sizes
          ⟨List.replicate num 0, [], []⟩).assignments a ≤
        max (maxRouted sizes (placeFrom "RAID 0" num 0 sizes
            ⟨List.replicate num 0, [], []⟩).assignments a)
          (maxRouted sizes (placeFrom "RAID 0" num 0 sizes
            ⟨List.replicate num 0, [], []⟩).assignments b) := le_max_left _ _
    have hB : maxRouted sizes
        (placeFrom "RAID 0" num 0 sizes
          ⟨List.replicate num 0, [], []⟩).assignments b ≤
        max (maxRouted sizes (placeFrom "RAID 0" num 0 sizes
            ⟨List.replicate num 0, [], []⟩).assignments a)
          (maxRouted sizes (placeFrom "RAID 0" num 0 sizes
            ⟨List.replicate num 0, [], []⟩).assignments b) := le_max_right _ _
    rw [abs_sub_le_iff]
    constructor <;> omega
  · intro s hs
    have hle : maxRouted sizes
        (placeFrom "RAID 0" num 0 sizes
          ⟨List.replicate num 0, [], []⟩).assignments a ≤ s := by
      rw [maxRouted]
      refine foldr_max_le _ s fun x hx => ?_
      exact le_of_eq (hs x (routedSizes_mem _ _ _ _ hx))
    omega

/-- Witness for C2 amended at 2 disks, two items of size 10, disks 0
and 1. -/
theorem C2_amended_witness :
    |((build_virtual_disks "RAID 0" 2 [10, 10]).loads.getD 0 0 : ℤ) -
        ((build_virtual_disks "RAID 0" 2 [10, 10]).loads.getD 1 0 : ℤ)| ≤
      (max (maxRouted [10, 10]
              (build_virtual_disks "RAID 0" 2 [10, 10]).assignments 0)
           (maxRouted [10, 10]
              (build_virtual_disks "RAID 0" 2 [10, 10]).assignments 1) : ℤ) ∧
    (build_virtual_disks "RAID 0" 2 [10, 10]).loads.getD 0 0 ≤
      (build_virtual_disks "RAID 0" 2 [10, 10]).loads.getD 1 0 + 10 :=
  (fun h => ⟨h.1, h.2 10 (by decide)⟩)
    (C2_amended_striped_load_balance 2 [10, 10] 0 1 (by norm_num) (by norm_num))
